import Mathlib

/-!
Verification development for the voice-mode MCP server.

The definitions below are a shallow embedding of the audio pipeline in
claude_code_voice_mode_mcp_server.py and of the shared input-stream
callback in mic_panel.py.  Byte buffers are modelled as lists of
natural numbers, monotonic clock readings as rationals, and the
external collaborators (HTTP backends, audio device, pause file,
transcription service) as explicit oracle parameters threaded through
the state-transition functions.
-/

namespace VoiceMode

/-! ## WAV header parsing (mirrors _parse_wav_header) -/

/-- Byte at index i of a buffer, 0 when out of range. -/
def byteAt (bs : List Nat) (i : Nat) : Nat := bs.getD i 0

/-- Little-endian 16-bit value at a fixed offset, as struct.unpack_from
with format H reads it. -/
def le16 (bs : List Nat) (off : Nat) : Nat :=
  byteAt bs off + 256 * byteAt bs (off + 1)

/-- Little-endian 32-bit value at a fixed offset, as struct.unpack_from
with format I reads it. -/
def le32 (bs : List Nat) (off : Nat) : Nat :=
  byteAt bs off + 256 * byteAt bs (off + 1) + 65536 * byteAt bs (off + 2) +
    16777216 * byteAt bs (off + 3)

/-- The audio format dictionary returned by _parse_wav_header. -/
structure AudioFormat where
  sample_rate : Nat
  channels : Nat
  bits_per_sample : Nat
  block_align : Nat
deriving DecidableEq

/-- WAV_HEADER_SIZE from the source. -/
def wavHeaderSize : Nat := 44

/-- The ASCII bytes of RIFF. -/
def riffMagic : List Nat := [82, 73, 70, 70]

/-- The ASCII bytes of WAVE. -/
def waveMagic : List Nat := [87, 65, 86, 69]

/-- Model of _parse_wav_header: fails on buffers shorter than 44 bytes or
on a magic mismatch at offsets 0 and 8, otherwise reads channels at
offset 22, sample rate at offset 24, block align at offset 32 and bits
per sample at offset 34, all little-endian at fixed offsets. -/
def parseWavHeader (header : List Nat) : Option AudioFormat :=
  if header.length < wavHeaderSize then none
  else if header.take 4 = riffMagic ∧ (header.drop 8).take 4 = waveMagic then
    some ⟨le32 header 24, le16 header 22, le16 header 34, le16 header 32⟩
  else none

/-- Little-endian encoding of a 16-bit value. -/
def enc16 (n : Nat) : List Nat := [n % 256, n / 256 % 256]

/-- Little-endian encoding of a 32-bit value. -/
def enc32 (n : Nat) : List Nat :=
  [n % 256, n / 256 % 256, n / 65536 % 256, n / 16777216 % 256]

/-- A well-formed 44-byte WAV header: correct magics, the four format
fields encoded little-endian at their fixed offsets, and arbitrary
bytes in every position the reader does not inspect (chunk size at
offset 4, fmt chunk id, size and audio format at offsets 12 to 21,
byte rate at offset 28, data chunk header at offsets 36 to 43). -/
def mkWavHeader (sz fmtPart br tl : List Nat) (sr ch ba bps : Nat) : List Nat :=
  riffMagic ++ sz ++ waveMagic ++ fmtPart ++ enc16 ch ++ enc32 sr ++ br ++
    enc16 ba ++ enc16 bps ++ tl

/-! ## Frame alignment (mirrors the align and final-flush steps of
speak_text_streaming) -/

/-- The alignment step of the streaming loop: usable is
len(data) - len(data) % frame_size, the writable part is data[:usable]
and the carried remainder is data[usable:]. -/
def align (buffer : List Nat) (frameSize : Nat) : List Nat × List Nat :=
  let usable := buffer.length - buffer.length % frameSize
  (buffer.take usable, buffer.drop usable)

/-- The final-flush padding step of speak_text_streaming: compute
pad = frame_size - len(remainder) % frame_size and append that many
zero bytes when pad < frame_size, otherwise leave the buffer alone. -/
def finalFlush (remainder : List Nat) (frameSize : Nat) : List Nat :=
  let pad := frameSize - remainder.length % frameSize
  if pad < frameSize then remainder ++ List.replicate pad 0 else remainder

/-! ## Streaming playback loop (mirrors the chunk loop of
speak_text_streaming) -/

/-- One chunk delivered by response.iter_content, together with the
oracle values the loop body observes while handling it: the monotonic
clock reading when the chunk arrives, the result of the is_tts_paused
poll, and whether a stream.write of the aligned part would succeed. -/
structure Chunk where
  time : ℚ
  data : List Nat
  paused : Bool
  writeOk : Bool

/-- The mutable loop variables of the chunk loop: last_chunk_time,
the carried remainder, total_bytes_written and chunk_count. -/
structure LoopState where
  lastTime : ℚ
  remainder : List Nat
  written : Nat
  chunkCount : Nat
deriving DecidableEq

/-- Update only last_chunk_time. -/
def setLastTime (s : LoopState) (t : ℚ) : LoopState :=
  ⟨t, s.remainder, s.written, s.chunkCount⟩

/-- The four values the loop variable exit_reason can take. -/
inductive ExitReason
  | exhausted
  | paused
  | write_error
  | stall
deriving DecidableEq

/-- The chunk loop of speak_text_streaming.  For each chunk it computes
the gap since the previous chunk, updates last_chunk_time, breaks with
reason stall when the gap exceeds 10.0 seconds and at least one chunk
has already been written (before touching the chunk data), breaks with
reason paused when the pause poll fires, otherwise concatenates the
carried remainder with the chunk, writes the frame-aligned part
(breaking with reason write_error if the device write fails) and
carries the new remainder forward.  An exhausted source gives reason
exhausted. -/
def streamLoop (frameSize : Nat) : LoopState → List Chunk → ExitReason × LoopState
  | s, [] => (ExitReason.exhausted, s)
  | s, c :: rest =>
    let gap := c.time - s.lastTime
    let s1 := setLastTime s c.time
    if 10 < gap ∧ 0 < s.chunkCount then (ExitReason.stall, s1)
    else if c.paused = true then (ExitReason.paused, s1)
    else
      let data := s.remainder ++ c.data
      let usable := data.length - data.length % frameSize
      if 0 < usable then
        if c.writeOk = true then
          streamLoop frameSize
            ⟨c.time, data.drop usable, s.written + usable, s.chunkCount + 1⟩ rest
        else (ExitReason.write_error, s1)
      else streamLoop frameSize ⟨c.time, data, s.written, s.chunkCount⟩ rest

/-- Every inter-chunk gap of the source is at most the bound, measuring
the first gap from the given initial clock reading. -/
def gapsAtMost (bound : ℚ) : ℚ → List Chunk → Prop
  | _, [] => True
  | t0, c :: rest => c.time - t0 ≤ bound ∧ gapsAtMost bound c.time rest

/-- How a whole streaming attempt can fail: a StreamingStallError, or
any other exception (HTTP error, invalid WAV header, device failure on
open, ZeroDivisionError). -/
inductive StreamErr
  | stall
  | other
deriving DecidableEq

/-- The oracle inputs of one call to speak_text_streaming. -/
structure StreamEnv where
  httpOk : Bool
  header : List Nat
  t0 : ℚ
  chunks : List Chunk
  pausedAtFlush : Bool
  flushWriteOk : Bool

/-- Model of speak_text_streaming: raise on HTTP failure, parse the
first 44 header bytes, run the chunk loop starting from the leftover
header bytes, write the zero-padded final remainder unless the pause
poll fires, and raise StreamingStallError exactly when the loop exit
reason is stall; otherwise report bytes written and chunk count.
A zero block_align raises ZeroDivisionError in the source at the first
modulus, modelled here as the generic error. -/
def runStreaming (env : StreamEnv) : Except StreamErr (Nat × Nat) :=
  if env.httpOk = false then Except.error StreamErr.other
  else
    match parseWavHeader (env.header.take wavHeaderSize) with
    | none => Except.error StreamErr.other
    | some fmt =>
      if fmt.block_align = 0 then Except.error StreamErr.other
      else
        let r := streamLoop fmt.block_align
          ⟨env.t0, env.header.drop wavHeaderSize, 0, 0⟩ env.chunks
        let s := r.2
        let w :=
          if s.remainder ≠ [] ∧ env.pausedAtFlush = false ∧ env.flushWriteOk = true then
            s.written + (finalFlush s.remainder fmt.block_align).length
          else s.written
        if r.1 = ExitReason.stall then Except.error StreamErr.stall
        else Except.ok (w, s.chunkCount)

/-! ## VAD-gated capture (mirrors the polling loop of record_audio) -/

/-- The polling loop of record_audio over the per-frame VAD verdicts.
Arguments after the frame list: silence_count, speech_detected, and the
number of frames already consumed.  A speech frame sets speech_detected
and resets silence_count, a silence frame increments silence_count, and
the loop stops as soon as speech_detected holds and silence_count has
reached the threshold.  Returns frames consumed and speech_detected. -/
def vadGo (thr : Nat) : List Bool → Nat → Bool → Nat → Nat × Bool
  | [], _, sp, elapsed => (elapsed, sp)
  | f :: rest, silence, sp, elapsed =>
    let sp2 := sp || f
    let silence2 := if f then 0 else silence + 1
    if sp2 = true ∧ thr ≤ silence2 then (elapsed + 1, sp2)
    else vadGo thr rest silence2 sp2 (elapsed + 1)

/-- record_audio runs the polling loop for at most max_frames
iterations starting from no speech and no silence run. -/
def vadRun (maxFrames thr : Nat) (frames : List Bool) : Nat × Bool :=
  vadGo thr (frames.take maxFrames) 0 false 0

/-! ## Substring matching and the recovery word sets -/

/-- Whether the first list is a leading segment of the second. -/
def listLeads : List Char → List Char → Bool
  | [], _ => true
  | _ :: _, [] => false
  | a :: as, b :: bs => a == b && listLeads as bs

/-- Whether the needle occurs contiguously somewhere in the haystack. -/
def listHas (needle : List Char) : List Char → Bool
  | [] => listLeads needle []
  | c :: tl => listLeads needle (c :: tl) || listHas needle tl

/-- Python substring membership: needle in hay. -/
def strHas (hay needle : String) : Bool :=
  listHas needle.toList hay.toList

/-- The apostrophe character. -/
def aposChar : Char := Char.ofNat 39

/-- The apostrophe as a one-character string. -/
def aposStr : String := String.mk [aposChar]

/-- The affirmative word set of _handle_streaming_failure. -/
def yesWords : List String :=
  ["yes", "yeah", "yep", "yup", "hear", "ok", "okay", "can", "working"]

/-- The negative word set of _handle_streaming_failure. -/
def noWords : List String :=
  ["no", "nope", "can" ++ aposStr ++ "t", "cannot", "nothing",
   "don" ++ aposStr ++ "t"]

/-- Remove leading and trailing whitespace, as str.strip does. -/
def stripL (l : List Char) : List Char :=
  ((l.dropWhile Char.isWhitespace).reverse.dropWhile Char.isWhitespace).reverse

/-- The strip().lower() normalisation applied to the transcript. -/
def pyStripLower (s : String) : String :=
  String.mk ((stripL s.toList).map Char.toLower)

/-! ## Non-streaming fallback (mirrors speak_text_nonstreaming) -/

/-- The oracle inputs of one call to speak_text_nonstreaming: for each
of the two methods, whether the request raises, the HTTP status code,
and for the native method the output_file_url field of the JSON
answer. -/
structure NonStreamEnv where
  m2Raises : Bool
  m2Status : Nat
  m3Raises : Bool
  m3Status : Nat
  m3Url : String

/-- Status of a non-streaming attempt: the spoken dictionary, or the
all-methods-failed error dictionary. -/
inductive NSRes
  | spoken
  | totalFailure
deriving DecidableEq

/-- Model of speak_text_nonstreaming.  Method 2 (the OpenAI-style
endpoint) succeeds when the request does not raise and returns
status 200.  Only if it failed is Method 3 (the native endpoint)
tried; it succeeds when the request does not raise, returns status
200 and a non-empty output_file_url.  When both fail the function
returns the error dictionary instead of raising.  The second
component records whether Method 3 was attempted. -/
def speakTextNonStreaming (env : NonStreamEnv) : NSRes × Bool :=
  if env.m2Raises = false ∧ env.m2Status = 200 then (NSRes.spoken, false)
  else if env.m3Raises = false ∧ env.m3Status = 200 ∧ env.m3Url ≠ "" then
    (NSRes.spoken, true)
  else (NSRes.totalFailure, true)

/-! ## Process-wide state and the recovery protocol -/

/-- The module-level mutable state of the server process:
current_voice, _streaming_available (None / True / False),
_services_available and _voice_mode_disabled. -/
structure ProcState where
  currentVoice : String
  streamingAvailable : Option Bool
  servicesAvailable : Bool
  voiceModeDisabled : Bool
deriving DecidableEq

/-- Set _voice_mode_disabled. -/
def setDisabled (st : ProcState) (b : Bool) : ProcState :=
  ⟨st.currentVoice, st.streamingAvailable, st.servicesAvailable, b⟩

/-- Set _streaming_available. -/
def setStreaming (st : ProcState) (v : Option Bool) : ProcState :=
  ⟨st.currentVoice, v, st.servicesAvailable, st.voiceModeDisabled⟩

/-- Set _services_available. -/
def setServices (st : ProcState) (b : Bool) : ProcState :=
  ⟨st.currentVoice, st.streamingAvailable, b, st.voiceModeDisabled⟩

/-- Set current_voice. -/
def setVoice (st : ProcState) (v : String) : ProcState :=
  ⟨v, st.streamingAvailable, st.servicesAvailable, st.voiceModeDisabled⟩

/-- The oracle inputs of one run of _handle_streaming_failure: the
non-streaming environment seen by the notification call, whether
record_audio raises, the length of the captured audio, and the raw
transcript returned by transcribe_audio for it. -/
structure RecEnv where
  notifyEnv : NonStreamEnv
  captureRaises : Bool
  audioLen : Nat
  transcript : String

/-- The four terminal outcomes of the recovery protocol. -/
inductive RecRes
  | totalAudioFailure
  | recoveredConfirmed
  | userCannotHear
  | recoveredUnclear
deriving DecidableEq

/-- The status string of each recovery outcome as returned by
_handle_streaming_failure. -/
def recStatus : RecRes → String
  | RecRes.totalAudioFailure => "error"
  | RecRes.recoveredConfirmed => "spoken_with_recovery"
  | RecRes.userCannotHear => "error"
  | RecRes.recoveredUnclear => "spoken_with_recovery"

/-- Model of _handle_streaming_failure.  If the non-streaming
notification does not come back spoken, voice mode is disabled and the
total-audio-failure error is returned.  Otherwise the confirmation
utterance is captured; an exception or empty capture leads to the
unclear outcome.  A non-empty capture is stripped, lower-cased and
matched by substring membership first against the affirmative words
(confirmed outcome, voice mode untouched) and only then against the
negative words (voice mode disabled); no match gives the unclear
outcome. -/
def handleStreamingFailure (env : RecEnv) (st : ProcState) : RecRes × ProcState :=
  if (speakTextNonStreaming env.notifyEnv).1 ≠ NSRes.spoken then
    (RecRes.totalAudioFailure, setDisabled st true)
  else if env.captureRaises = true then (RecRes.recoveredUnclear, st)
  else if env.audioLen = 0 then (RecRes.recoveredUnclear, st)
  else
    let t := pyStripLower env.transcript
    if yesWords.any (fun w => strHas t w) then (RecRes.recoveredConfirmed, st)
    else if noWords.any (fun w => strHas t w) then
      (RecRes.userCannotHear, setDisabled st true)
    else (RecRes.recoveredUnclear, st)

/-! ## speak_text dispatch -/

/-- The oracle inputs of one call to speak_text. -/
structure SpeakEnv where
  paused : Bool
  streamEnv : StreamEnv
  nsEnv : NonStreamEnv
  recEnv : RecEnv

/-- The dictionaries speak_text can return. -/
inductive SpeakRes
  | disabledErr
  | pausedRes
  | spoken (written chunkCount : Nat)
  | nonstream (r : NSRes)
  | recovery (r : RecRes)
deriving DecidableEq

/-- Model of speak_text.  Return the disabled error while
_voice_mode_disabled is set; return paused while the pause file is
set; skip the streaming attempt entirely while _streaming_available is
False and go straight to the non-streaming fallback; otherwise attempt
streaming: on success mark streaming available, on StreamingStallError
mark it unavailable and run the recovery protocol, on any other
exception mark it unavailable only when it was still None and fall
through to the non-streaming fallback.  The middle component records
whether streaming was attempted. -/
def speakText (env : SpeakEnv) (st : ProcState) : SpeakRes × Bool × ProcState :=
  if st.voiceModeDisabled = true then (SpeakRes.disabledErr, false, st)
  else if env.paused = true then (SpeakRes.pausedRes, false, st)
  else if st.streamingAvailable = some false then
    (SpeakRes.nonstream (speakTextNonStreaming env.nsEnv).1, false, st)
  else
    match runStreaming env.streamEnv with
    | Except.ok stats =>
        (SpeakRes.spoken stats.1 stats.2, true, setStreaming st (some true))
    | Except.error StreamErr.stall =>
        let r := handleStreamingFailure env.recEnv (setStreaming st (some false))
        (SpeakRes.recovery r.1, true, r.2)
    | Except.error StreamErr.other =>
        let st1 := if st.streamingAvailable = none
                   then setStreaming st (some false) else st
        (SpeakRes.nonstream (speakTextNonStreaming env.nsEnv).1, true, st1)

/-! ## call_tool dispatch -/

/-- The five tools of the MCP server. -/
inductive ToolName
  | speak
  | listen
  | converse
  | set_voice
  | voice_status
deriving DecidableEq

/-- The oracle inputs of one call_tool invocation. -/
structure ToolEnv where
  alltalkOk : Bool
  whisperOk : Bool
  speakEnv : SpeakEnv
  message : String
  transcript : String
  newVoice : String

/-- Classes of externally visible input/output a call performs:
health-check HTTP requests, TTS backend requests, STT backend
requests, and audio-device access.  Each branch of the dispatch is
tagged with an abstract trace of the I/O it performs; the short-circuit
branches perform none. -/
inductive Effect
  | healthCheck
  | ttsRequest
  | sttRequest
  | audioDevice
deriving DecidableEq

/-- The answers call_tool can produce. -/
inductive ToolRes
  | unavailable
  | disabledErr
  | speakAns (r : SpeakRes)
  | listenAns (t : String)
  | converseAns (t : String)
  | voiceSet (v : String)
  | statusAns
deriving DecidableEq

/-- The body of call_tool after the services gate: the disabled check
for speak, listen and converse, then the per-tool dispatch.  The eff
argument is the I/O trace already performed by the services gate. -/
def callToolBody (n : ToolName) (env : ToolEnv) (st : ProcState)
    (eff : List Effect) : ToolRes × List Effect × ProcState :=
  if (n = ToolName.speak ∨ n = ToolName.listen ∨ n = ToolName.converse) ∧
      st.voiceModeDisabled = true then
    (ToolRes.disabledErr, eff, st)
  else
    match n with
    | ToolName.speak =>
      let r := speakText env.speakEnv st
      (ToolRes.speakAns r.1, eff ++ [Effect.ttsRequest, Effect.audioDevice], r.2.2)
    | ToolName.listen =>
      (ToolRes.listenAns env.transcript,
        eff ++ [Effect.audioDevice, Effect.sttRequest], st)
    | ToolName.converse =>
      let st1 := if env.message = "" then st else (speakText env.speakEnv st).2.2
      (ToolRes.converseAns env.transcript,
        eff ++ [Effect.ttsRequest, Effect.audioDevice, Effect.sttRequest], st1)
    | ToolName.set_voice =>
      (ToolRes.voiceSet env.newVoice, eff, setVoice st env.newVoice)
    | ToolName.voice_status =>
      (ToolRes.statusAns, eff ++ [Effect.healthCheck], st)

/-- Model of call_tool.  Every tool except voice_status first passes
the services gate: while _services_available is unset the two health
endpoints are probed, and only if both answer is the gate opened and
the body run; otherwise the unavailable answer is returned. -/
def callToolStep (n : ToolName) (env : ToolEnv) (st : ProcState) :
    ToolRes × List Effect × ProcState :=
  if n ≠ ToolName.voice_status ∧ st.servicesAvailable = false then
    if env.alltalkOk = true ∧ env.whisperOk = true then
      callToolBody n env (setServices st true)
        [Effect.healthCheck, Effect.healthCheck]
    else (ToolRes.unavailable, [Effect.healthCheck, Effect.healthCheck], st)
  else callToolBody n env st []

/-- The process state after a sequence of call_tool invocations. -/
def runCalls (calls : List (ToolName × ToolEnv)) (st : ProcState) : ProcState :=
  calls.foldl (fun s c => (callToolStep c.1 c.2 s).2.2) st

/-! ## Shared input-stream callback of the mic panel -/

/-- The panel state the shared callback reads and writes: the
recording flag, the mute flag, the mode string, the volume slider, the
level-meter value and the guarded recording-frames buffer. -/
structure PanelState where
  isRecording : Bool
  isMuted : Bool
  mode : String
  volume : Nat
  levelValue : ℚ
  recordingFrames : List (List Int)

/-- Update only the level-meter value. -/
def setLevel (st : PanelState) (v : ℚ) : PanelState :=
  ⟨st.isRecording, st.isMuted, st.mode, st.volume, v, st.recordingFrames⟩

/-- Append one scaled frame to the recording buffer. -/
def pushFrame (st : PanelState) (f : List Int) : PanelState :=
  ⟨st.isRecording, st.isMuted, st.mode, st.volume, st.levelValue,
    st.recordingFrames ++ [f]⟩

/-- The push_to_talk mode string. -/
def pushToTalkMode : String := "push_to_talk"

/-- Model of shared_callback in mic_panel.py.  Empty frames are
dropped.  Every other frame first updates the level meter through the
RMS-and-volume computation levelOf (a float computation, abstracted as
an oracle).  Then, only while the recording flag is set, the frame is
scaled (oracle scaleOf) and appended to the recording buffer, except
that in any mode other than push_to_talk a set mute flag suppresses
the append. -/
def sharedCallback (levelOf : List Int → Nat → ℚ)
    (scaleOf : List Int → Nat → List Int)
    (frame : List Int) (st : PanelState) : PanelState :=
  if frame.length = 0 then st
  else
    let st1 := setLevel st (levelOf frame st.volume)
    if st1.isRecording = true then
      if st1.mode ≠ pushToTalkMode ∧ st1.isMuted = true then st1
      else pushFrame st1 (scaleOf frame st.volume)
    else st1

/-! ## Concrete sample environments used by the witnesses -/

/-- A concrete streaming environment whose source writes one chunk and
then stalls for 11 seconds. -/
def stallEnvW : StreamEnv :=
  ⟨true,
   mkWavHeader [0, 0, 0, 0] (List.replicate 10 0) [0, 0, 0, 0]
     (List.replicate 8 0) 16000 1 2 16,
   0,
   [⟨1, [7, 7], false, true⟩, ⟨12, [7], false, true⟩],
   false, true⟩

/-- A non-streaming environment in which the first method succeeds. -/
def nsOkEnv : NonStreamEnv := ⟨false, 200, false, 200, "u"⟩

/-- A non-streaming environment in which both methods raise. -/
def nsFailEnv : NonStreamEnv := ⟨true, 0, true, 0, ""⟩

/-- A non-streaming environment in which the first method raises no
exception and answers with the 2xx success status 201. -/
def ns201Env : NonStreamEnv := ⟨false, 201, false, 200, "u"⟩

/-- A recovery environment in which the notification succeeds and the
user answers with a transcript containing the affirmative substring
can inside the negative word can-apostrophe-t. -/
def recCanEnv : RecEnv := ⟨nsOkEnv, false, 5, "can" ++ aposStr ++ "t"⟩

/-- A recovery environment in which the notification succeeds and the
capture comes back empty. -/
def recUnclearEnv : RecEnv := ⟨nsOkEnv, false, 0, ""⟩

/-- A recovery environment in which the notification itself fails and
the capture would have come back empty. -/
def recFailEnv : RecEnv := ⟨nsFailEnv, false, 0, ""⟩

/-- A speak environment that is not paused, whose streaming source
stalls, and whose fallback succeeds. -/
def speakEnvW : SpeakEnv := ⟨false, stallEnvW, nsOkEnv, recUnclearEnv⟩

/-- A tool environment built over the sample speak environment. -/
def toolEnvW : ToolEnv := ⟨true, true, speakEnvW, "hello", "hi", "Freya.wav"⟩

/-- A process state with streaming marked unavailable. -/
def stFalseW : ProcState := ⟨"Freya.wav", some false, true, false⟩

/-- A process state with streaming not yet probed. -/
def stNoneW : ProcState := ⟨"Freya.wav", none, true, false⟩

/-- A process state with voice mode disabled by the recovery handler. -/
def stDisW : ProcState := ⟨"Freya.wav", some false, true, true⟩

/-- A healthy process state used by the recovery witnesses. -/
def procW : ProcState := ⟨"Freya.wav", none, true, false⟩

/-- A panel state that is recording in toggle mode with the microphone
not muted. -/
def panelW : PanelState := ⟨true, false, "toggle", 50, 0, []⟩

/-! ## Helper lemmas -/

theorem align_sub_eq (n fs : Nat) : n - n % fs = fs * (n / fs) := by
  have h := Nat.div_add_mod n fs
  calc n - n % fs = fs * (n / fs) + n % fs - n % fs := by rw [h]
    _ = fs * (n / fs) := Nat.add_sub_cancel _ _

theorem finalFlush_eq (rem : List Nat) (fs : Nat) (hfs : 0 < fs) :
    finalFlush rem fs = rem ++ List.replicate ((fs - rem.length % fs) % fs) 0 := by
  have hlt : rem.length % fs < fs := Nat.mod_lt _ hfs
  by_cases h : fs - rem.length % fs < fs
  · simp only [finalFlush, if_pos h, Nat.mod_eq_of_lt h]
  · have h0 : rem.length % fs = 0 := by omega
    simp only [finalFlush, if_neg h, h0]
    simp

theorem finalFlush_len (rem : List Nat) (fs : Nat) (hfs : 0 < fs) :
    (finalFlush rem fs).length % fs = 0 := by
  rw [finalFlush_eq rem fs hfs]
  have hlt : rem.length % fs < fs := Nat.mod_lt _ hfs
  obtain ⟨m, hm⟩ : ∃ m, m = fs * (rem.length / fs) := ⟨_, rfl⟩
  have hq : m + rem.length % fs = rem.length := by
    rw [hm]; exact Nat.div_add_mod rem.length fs
  by_cases h0 : rem.length % fs = 0
  · have : (fs - rem.length % fs) % fs = 0 := by
      rw [h0, Nat.sub_zero, Nat.mod_self]
    simp only [List.length_append, List.length_replicate, this, Nat.add_zero]
    omega
  · have hsm : (fs - rem.length % fs) % fs = fs - rem.length % fs :=
      Nat.mod_eq_of_lt (by omega)
    simp only [List.length_append, List.length_replicate, hsm]
    have htot : rem.length + (fs - rem.length % fs) = m + fs := by omega
    rw [htot, hm, ← Nat.mul_succ]
    exact Nat.mul_mod_right fs _

/-- Claim C5: for every byte buffer and positive frame size the
alignment step emits a prefix whose length is an exact multiple of the
frame size, prefix and remainder reconstruct the input exactly, and
final flush appends exactly enough zero bytes to reach the next frame
boundary, so the flushed buffer has frame-aligned length and an
already-aligned remainder is returned unchanged. -/
theorem frame_alignment_spec (buffer rem : List Nat) (fs : Nat) (hfs : 0 < fs) :
    (align buffer fs).1.length % fs = 0
  ∧ (align buffer fs).1 ++ (align buffer fs).2 = buffer
  ∧ finalFlush rem fs = rem ++ List.replicate ((fs - rem.length % fs) % fs) 0
  ∧ (finalFlush rem fs).length % fs = 0
  ∧ (rem.length % fs = 0 → finalFlush rem fs = rem) := by
  refine ⟨?_, ?_, finalFlush_eq rem fs hfs, finalFlush_len rem fs hfs, ?_⟩
  · simp only [align, List.length_take]
    rw [Nat.min_eq_left (Nat.sub_le _ _), align_sub_eq]
    exact Nat.mul_mod_right fs _
  · exact List.take_append_drop _ _
  · intro h0
    rw [finalFlush_eq rem fs hfs, h0, Nat.sub_zero, Nat.mod_self]
    simp

/-- Witness for claim C5 at a concrete buffer, remainder and frame
size. -/
theorem frame_alignment_witness :
    (0 : Nat) < 2 ∧
    ((align [1, 2, 3] 2).1.length % 2 = 0 ∧
     (align [1, 2, 3] 2).1 ++ (align [1, 2, 3] 2).2 = [1, 2, 3] ∧
     finalFlush [5, 6] 2 =
       [5, 6] ++ List.replicate ((2 - [5, 6].length % 2) % 2) 0 ∧
     (finalFlush [5, 6] 2).length % 2 = 0 ∧
     ([5, 6].length % 2 = 0 → finalFlush [5, 6] 2 = [5, 6])) :=
  ⟨by decide, frame_alignment_spec [1, 2, 3] [5, 6] 2 (by decide)⟩

theorem byteAt_drop (l : List Nat) (n m : Nat) :
    byteAt (l.drop n) m = byteAt l (n + m) := by
  simp [byteAt, List.getD_eq_getElem?_getD, List.getElem?_drop]

theorem le16_of_drop (l rest : List Nat) (n v : Nat)
    (hd : l.drop n = enc16 v ++ rest) (hv : v < 65536) : le16 l n = v := by
  have h0 : byteAt l n = v % 256 := by
    have h := byteAt_drop l n 0
    rw [hd] at h
    simpa [enc16, byteAt] using h.symm
  have h1 : byteAt l (n + 1) = v / 256 % 256 := by
    have h := byteAt_drop l n 1
    rw [hd] at h
    simpa [enc16, byteAt] using h.symm
  rw [le16, h0, h1]
  omega

theorem le32_of_drop (l rest : List Nat) (n v : Nat)
    (hd : l.drop n = enc32 v ++ rest) (hv : v < 4294967296) : le32 l n = v := by
  have h0 : byteAt l n = v % 256 := by
    have h := byteAt_drop l n 0
    rw [hd] at h
    simpa [enc32, byteAt] using h.symm
  have h1 : byteAt l (n + 1) = v / 256 % 256 := by
    have h := byteAt_drop l n 1
    rw [hd] at h
    simpa [enc32, byteAt] using h.symm
  have h2 : byteAt l (n + 2) = v / 65536 % 256 := by
    have h := byteAt_drop l n 2
    rw [hd] at h
    simpa [enc32, byteAt] using h.symm
  have h3 : byteAt l (n + 3) = v / 16777216 % 256 := by
    have h := byteAt_drop l n 3
    rw [hd] at h
    simpa [enc32, byteAt] using h.symm
  rw [le32, h0, h1, h2, h3]
  omega

/-- Claim C6: the WAV header reader fails exactly on short buffers and
magic mismatches, extracts the format fields little-endian from the
fixed offsets of any well-formed 44-byte header, and (being a plain
function of the buffer) has no side effects. -/
theorem wav_header_parse_spec
    (header sz fmtPart br tl : List Nat) (sr ch ba bps : Nat)
    (hsz : sz.length = 4) (hf : fmtPart.length = 10) (hbr : br.length = 4)
    (ht : tl.length = 8)
    (hsr : sr < 4294967296) (hch : ch < 65536) (hba : ba < 65536)
    (hbps : bps < 65536) :
    (header.length < 44 → parseWavHeader header = none)
  ∧ (¬(header.take 4 = riffMagic ∧ (header.drop 8).take 4 = waveMagic) →
      parseWavHeader header = none)
  ∧ parseWavHeader (mkWavHeader sz fmtPart br tl sr ch ba bps) =
      some ⟨sr, ch, bps, ba⟩ := by
  refine ⟨?_, ?_, ?_⟩
  · intro h
    simp [parseWavHeader, wavHeaderSize, h]
  · intro h
    by_cases hl : header.length < 44
    · simp [parseWavHeader, wavHeaderSize, hl]
    · simp [parseWavHeader, wavHeaderSize, hl, h]
  · have hlen : (mkWavHeader sz fmtPart br tl sr ch ba bps).length = 44 := by
      simp [mkWavHeader, riffMagic, waveMagic, enc16, enc32, hsz, hf, hbr, ht]
    have htake : (mkWavHeader sz fmtPart br tl sr ch ba bps).take 4 = riffMagic := by
      have hre : mkWavHeader sz fmtPart br tl sr ch ba bps =
          riffMagic ++ (sz ++ (waveMagic ++ (fmtPart ++ (enc16 ch ++ (enc32 sr ++
            (br ++ (enc16 ba ++ (enc16 bps ++ tl)))))))) := by
        simp [mkWavHeader, List.append_assoc]
      rw [hre]
      exact List.take_left' (by simp [riffMagic])
    have hdrop8 :
        ((mkWavHeader sz fmtPart br tl sr ch ba bps).drop 8).take 4 = waveMagic := by
      have hre : mkWavHeader sz fmtPart br tl sr ch ba bps =
          (riffMagic ++ sz) ++ (waveMagic ++ (fmtPart ++ (enc16 ch ++ (enc32 sr ++
            (br ++ (enc16 ba ++ (enc16 bps ++ tl))))))) := by
        simp [mkWavHeader, List.append_assoc]
      rw [hre, List.drop_left' (by simp [riffMagic, hsz])]
      exact List.take_left' (by simp [waveMagic])
    have h22 : (mkWavHeader sz fmtPart br tl sr ch ba bps).drop 22 =
        enc16 ch ++ (enc32 sr ++ (br ++ (enc16 ba ++ (enc16 bps ++ tl)))) := by
      have hre : mkWavHeader sz fmtPart br tl sr ch ba bps =
          (riffMagic ++ sz ++ waveMagic ++ fmtPart) ++
            (enc16 ch ++ (enc32 sr ++ (br ++ (enc16 ba ++ (enc16 bps ++ tl))))) := by
        simp [mkWavHeader, List.append_assoc]
      rw [hre, List.drop_left' (by simp [riffMagic, waveMagic, hsz, hf])]
    have h24 : (mkWavHeader sz fmtPart br tl sr ch ba bps).drop 24 =
        enc32 sr ++ (br ++ (enc16 ba ++ (enc16 bps ++ tl))) := by
      have hre : mkWavHeader sz fmtPart br tl sr ch ba bps =
          (riffMagic ++ sz ++ waveMagic ++ fmtPart ++ enc16 ch) ++
            (enc32 sr ++ (br ++ (enc16 ba ++ (enc16 bps ++ tl)))) := by
        simp [mkWavHeader, List.append_assoc]
      rw [hre, List.drop_left' (by simp [riffMagic, waveMagic, enc16, hsz, hf])]
    have h32 : (mkWavHeader sz fmtPart br tl sr ch ba bps).drop 32 =
        enc16 ba ++ (enc16 bps ++ tl) := by
      have hre : mkWavHeader sz fmtPart br tl sr ch ba bps =
          (riffMagic ++ sz ++ waveMagic ++ fmtPart ++ enc16 ch ++ enc32 sr ++ br) ++
            (enc16 ba ++ (enc16 bps ++ tl)) := by
        simp [mkWavHeader, List.append_assoc]
      rw [hre,
        List.drop_left' (by simp [riffMagic, waveMagic, enc16, enc32, hsz, hf, hbr])]
    have h34 : (mkWavHeader sz fmtPart br tl sr ch ba bps).drop 34 =
        enc16 bps ++ tl := by
      have hre : mkWavHeader sz fmtPart br tl sr ch ba bps =
          (riffMagic ++ sz ++ waveMagic ++ fmtPart ++ enc16 ch ++ enc32 sr ++ br ++
            enc16 ba) ++ (enc16 bps ++ tl) := by
        simp [mkWavHeader, List.append_assoc]
      rw [hre,
        List.drop_left' (by simp [riffMagic, waveMagic, enc16, enc32, hsz, hf, hbr])]
    simp only [parseWavHeader]
    rw [if_neg (by simp [hlen, wavHeaderSize]), if_pos ⟨htake, hdrop8⟩,
      le32_of_drop _ _ 24 sr h24 hsr, le16_of_drop _ _ 22 ch h22 hch,
      le16_of_drop _ _ 34 bps h34 hbps, le16_of_drop _ _ 32 ba h32 hba]

/-- Witness for claim C6: the empty buffer is rejected and a concrete
well-formed header for 16 kHz mono 16-bit audio parses to exactly those
fields. -/
theorem wav_header_parse_witness :
    parseWavHeader [] = none ∧
    parseWavHeader (mkWavHeader [0, 0, 0, 0] (List.replicate 10 0) [0, 0, 0, 0]
      (List.replicate 8 0) 16000 1 2 16) = some ⟨16000, 1, 16, 2⟩ := by
  have h := wav_header_parse_spec [] [0, 0, 0, 0] (List.replicate 10 0) [0, 0, 0, 0]
    (List.replicate 8 0) 16000 1 2 16 (by decide) (by decide) (by decide)
    (by decide) (by decide) (by decide) (by decide) (by decide)
  exact ⟨h.1 (by decide), h.2.2⟩

theorem streamLoop_stall_pos (fs : Nat) (chunks : List Chunk) :
    ∀ s : LoopState, (streamLoop fs s chunks).1 = ExitReason.stall →
      0 < (streamLoop fs s chunks).2.chunkCount := by
  induction chunks with
  | nil => intro s h; simp [streamLoop] at h
  | cons c rest ih =>
    intro s h
    simp only [streamLoop] at h ⊢
    by_cases h1 : 10 < c.time - s.lastTime ∧ 0 < s.chunkCount
    · rw [if_pos h1] at h ⊢
      exact h1.2
    · rw [if_neg h1] at h ⊢
      by_cases h2 : c.paused = true
      · rw [if_pos h2] at h; simp at h
      · rw [if_neg h2] at h ⊢
        by_cases h3 : 0 < (s.remainder ++ c.data).length -
            (s.remainder ++ c.data).length % fs
        · rw [if_pos h3] at h ⊢
          by_cases h4 : c.writeOk = true
          · rw [if_pos h4] at h ⊢
            exact ih _ h
          · rw [if_neg h4] at h; simp at h
        · rw [if_neg h3] at h ⊢
          exact ih _ h

theorem streamLoop_no_stall (fs : Nat) (chunks : List Chunk) :
    ∀ s : LoopState, gapsAtMost 9 s.lastTime chunks →
      (streamLoop fs s chunks).1 ≠ ExitReason.stall := by
  induction chunks with
  | nil => intro s _ h; simp [streamLoop] at h
  | cons c rest ih =>
    intro s hg
    obtain ⟨hg1, hg2⟩ := hg
    simp only [streamLoop]
    have hns : ¬(10 < c.time - s.lastTime ∧ 0 < s.chunkCount) := by
      rintro ⟨hgt, -⟩
      linarith
    rw [if_neg hns]
    by_cases h2 : c.paused = true
    · rw [if_pos h2]; simp
    · rw [if_neg h2]
      by_cases h3 : 0 < (s.remainder ++ c.data).length -
          (s.remainder ++ c.data).length % fs
      · rw [if_pos h3]
        by_cases h4 : c.writeOk = true
        · rw [if_pos h4]
          exact ih _ hg2
        · rw [if_neg h4]; simp
      · rw [if_neg h3]
        exact ih _ hg2

theorem streamLoop_stall_now (fs : Nat) (s : LoopState) (c : Chunk)
    (rest : List Chunk) (h1 : 10 < c.time - s.lastTime) (h2 : 0 < s.chunkCount) :
    streamLoop fs s (c :: rest) = (ExitReason.stall, setLastTime s c.time) := by
  simp only [streamLoop]
  rw [if_pos ⟨h1, h2⟩]

theorem runStreaming_stall (env : StreamEnv) (fmt : AudioFormat)
    (h1 : env.httpOk = true)
    (h2 : parseWavHeader (env.header.take wavHeaderSize) = some fmt)
    (h3 : fmt.block_align ≠ 0)
    (h4 : (streamLoop fmt.block_align ⟨env.t0, env.header.drop wavHeaderSize, 0, 0⟩
            env.chunks).1 = ExitReason.stall) :
    runStreaming env = Except.error StreamErr.stall := by
  simp only [runStreaming, h1, h2]
  rw [if_neg (by simp), if_neg h3, if_pos h4]

/-- Claim C1: in the streaming chunk loop the Stalled exit reason fires
exactly when the inter-chunk gap exceeds 10.0 seconds after at least
one chunk has been written, the stalling chunk is not consumed (only
last_chunk_time changes in the returned state), a source whose gaps
are all at most 9 seconds never stalls, a stall implies a previously
written chunk, and a stalled loop makes the whole streaming session
raise StreamingStallError. -/
theorem stall_detection_spec (fs : Nat) (s : LoopState) (chunks : List Chunk)
    (env : StreamEnv) (fmt : AudioFormat) :
    ((streamLoop fs s chunks).1 = ExitReason.stall →
        0 < (streamLoop fs s chunks).2.chunkCount)
  ∧ (gapsAtMost 9 s.lastTime chunks →
        (streamLoop fs s chunks).1 ≠ ExitReason.stall)
  ∧ (∀ c rest, chunks = c :: rest → 10 < c.time - s.lastTime →
        0 < s.chunkCount →
        streamLoop fs s chunks = (ExitReason.stall, setLastTime s c.time))
  ∧ (env.httpOk = true →
        parseWavHeader (env.header.take wavHeaderSize) = some fmt →
        fmt.block_align ≠ 0 →
        (streamLoop fmt.block_align ⟨env.t0, env.header.drop wavHeaderSize, 0, 0⟩
            env.chunks).1 = ExitReason.stall →
        runStreaming env = Except.error StreamErr.stall) := by
  refine ⟨streamLoop_stall_pos fs chunks s, streamLoop_no_stall fs chunks s,
    ?_, runStreaming_stall env fmt⟩
  rintro c rest rfl hgt hpos
  exact streamLoop_stall_now fs s c rest hgt hpos

/-- Witness for claim C1: a chunk arriving after an 11-second gap with
one chunk already written stalls the loop immediately, a 5-second gap
does not, and the stalling environment raises StreamingStallError. -/
theorem stall_detection_witness :
    (streamLoop 2 ⟨0, [], 4, 1⟩ [⟨11, [7, 7], false, true⟩] =
      (ExitReason.stall, ⟨11, [], 4, 1⟩)) ∧
    ((streamLoop 2 ⟨0, [], 4, 1⟩ [⟨5, [7, 7], false, true⟩]).1 ≠
      ExitReason.stall) ∧
    runStreaming stallEnvW = Except.error StreamErr.stall := by
  refine ⟨?_, ?_, ?_⟩
  · exact (stall_detection_spec 2 ⟨0, [], 4, 1⟩ [⟨11, [7, 7], false, true⟩]
      stallEnvW ⟨16000, 1, 16, 2⟩).2.2.1 ⟨11, [7, 7], false, true⟩ [] rfl
      (by norm_num) (by decide)
  · exact (stall_detection_spec 2 ⟨0, [], 4, 1⟩ [⟨5, [7, 7], false, true⟩]
      stallEnvW ⟨16000, 1, 16, 2⟩).2.1 ⟨by norm_num, trivial⟩
  · refine (stall_detection_spec 2 ⟨0, [], 4, 1⟩ [] stallEnvW
      ⟨16000, 1, 16, 2⟩).2.2.2 rfl (by decide) (by decide) ?_
    have hd : stallEnvW.header.drop wavHeaderSize = [] := by decide
    rw [hd]
    norm_num [stallEnvW, streamLoop, setLastTime]

theorem vadGo_all_false (thr : Nat) (fs : List Bool) :
    ∀ silence e : Nat, (∀ f ∈ fs, f = false) →
      vadGo thr fs silence false e = (e + fs.length, false) := by
  induction fs with
  | nil => intro silence e _; simp [vadGo]
  | cons f rest ih =>
    intro silence e hall
    have hf : f = false := hall f (by simp)
    subst hf
    simp only [vadGo, Bool.or_false]
    rw [if_neg (by simp)]
    rw [ih _ _ (fun g hg => hall g (by simp [hg]))]
    simp only [List.length_cons, Prod.mk.injEq]
    exact ⟨by omega, trivial⟩

theorem vadGo_speech (thr : Nat) (hthr : 1 ≤ thr) :
    ∀ (N : Nat) (rest : List Bool) (silence e : Nat) (sp : Bool), 1 ≤ N →
      vadGo thr (List.replicate N true ++ rest) silence sp e =
        vadGo thr rest 0 true (e + N) := by
  intro N
  induction N with
  | zero => intro _ _ _ _ h; omega
  | succ k ih =>
    intro rest silence e sp _
    rw [List.replicate_succ, List.cons_append]
    simp only [vadGo, Bool.or_true, if_true, eq_self_iff_true, true_and]
    rw [if_neg (by omega)]
    by_cases hk : 1 ≤ k
    · rw [ih rest 0 (e + 1) true hk]
      congr 1
      omega
    · have hk0 : k = 0 := by omega
      subst hk0
      simp only [List.replicate, List.nil_append]

theorem vadGo_silence_stop (thr : Nat) :
    ∀ (M silence e : Nat) (rest : List Bool), silence < thr →
      thr ≤ silence + M →
      vadGo thr (List.replicate M false ++ rest) silence true e =
        (e + (thr - silence), true) := by
  intro M
  induction M with
  | zero => intro silence e rest h1 h2; omega
  | succ k ih =>
    intro silence e rest h1 h2
    rw [List.replicate_succ, List.cons_append]
    simp only [vadGo, Bool.true_or, Bool.false_eq_true, if_false,
      eq_self_iff_true, true_and]
    by_cases hstop : thr ≤ silence + 1
    · rw [if_pos hstop]
      have hts : thr - silence = 1 := by omega
      rw [hts]
    · rw [if_neg hstop]
      rw [ih (silence + 1) (e + 1) rest (by omega) (by omega)]
      simp only [Prod.mk.injEq]
      exact ⟨by omega, trivial⟩

theorem vadGo_le (thr : Nat) (fs : List Bool) :
    ∀ (silence e : Nat) (sp : Bool),
      (vadGo thr fs silence sp e).1 ≤ e + fs.length := by
  induction fs with
  | nil => intro silence e sp; simp [vadGo]
  | cons f rest ih =>
    intro silence e sp
    simp only [vadGo, List.length_cons]
    by_cases hc : ((sp || f) = true ∧ thr ≤ if f = true then 0 else silence + 1)
    · rw [if_pos hc]
      show e + 1 ≤ e + (rest.length + 1)
      omega
    · rw [if_neg hc]
      have h := ih (if f = true then 0 else silence + 1) (e + 1) (sp || f)
      omega

/-- Claim C7: the VAD-gated loop stops exactly at the stop condition:
an all-silence session never sets speech_detected and runs for the
full max_frames, a session of N speech frames followed by enough
silence stops after exactly N plus the silence threshold frames with
speech detected, and no session ever consumes more than max_frames
frames. -/
theorem vad_capture_spec (maxFrames thr N M : Nat) (frames : List Bool) :
    ((∀ f ∈ frames, f = false) → maxFrames ≤ frames.length →
        vadRun maxFrames thr frames = (maxFrames, false))
  ∧ (1 ≤ N → 1 ≤ thr → N + thr ≤ maxFrames → thr ≤ M →
        vadRun maxFrames thr
            (List.replicate N true ++ List.replicate M false) =
          (N + thr, true))
  ∧ (vadRun maxFrames thr frames).1 ≤ maxFrames := by
  refine ⟨?_, ?_, ?_⟩
  · intro hall hlen
    rw [vadRun, vadGo_all_false thr _ 0 0
      (fun f hf => hall f (List.take_subset maxFrames frames hf))]
    simp [List.length_take, Nat.min_eq_left hlen]
  · intro hN hthr hsum hM
    rw [vadRun, List.take_append_eq_append_take, List.take_replicate,
      List.take_replicate, List.length_replicate]
    have hNle : min maxFrames N = N := by omega
    rw [hNle]
    rw [vadGo_speech thr hthr N _ 0 0 false hN]
    rw [← List.append_nil (List.replicate (min (maxFrames - N) M) false)]
    rw [vadGo_silence_stop thr (min (maxFrames - N) M) 0 (0 + N) []
      (by omega) (by omega)]
    simp only [Prod.mk.injEq]
    exact ⟨by omega, trivial⟩
  · rw [vadRun]
    have h := vadGo_le thr (frames.take maxFrames) 0 0 false
    simp only [List.length_take] at h
    omega

/-- Witness for claim C7: twelve silence frames against a ten-frame
budget run to the full budget with no speech detected, and three
speech frames followed by five silence frames under a two-frame
silence threshold stop after exactly five frames with speech
detected. -/
theorem vad_capture_witness :
    vadRun 10 2 (List.replicate 12 false) = (10, false) ∧
    vadRun 10 2 (List.replicate 3 true ++ List.replicate 5 false) =
      (5, true) := by
  refine ⟨?_, ?_⟩
  · exact (vad_capture_spec 10 2 3 5 (List.replicate 12 false)).1
      (by decide) (by decide)
  · exact (vad_capture_spec 10 2 3 5 (List.replicate 12 false)).2.1
      (by decide) (by decide) (by decide) (by decide)

/-- Counterexample for claim C8 as stated: when the first method
raises no exception and answers with status 201, the second method is
attempted even though 201 is a 2xx status and no exception occurred,
and the payload plays no role because the source tests
status_code == 200 and never inspects the first method's payload; so
the second strategy is not attempted only on non-2xx status,
exception or empty payload. -/
theorem nonstreaming_fallback_cex :
    (speakTextNonStreaming ns201Env).2 = true ∧
    ns201Env.m2Raises = false ∧
    200 ≤ ns201Env.m2Status ∧ ns201Env.m2Status < 300 :=
  ⟨by decide, rfl, by decide, by decide⟩

/-- Claim C8 (amended): speak_text_nonstreaming tries the OpenAI-style
request first and the polling native request second; the second
strategy is attempted exactly when the first failed by exception or
non-200 status; and when both strategies fail the function returns
the error-status result instead of raising. -/
theorem nonstreaming_fallback_spec (env : NonStreamEnv) :
    ((speakTextNonStreaming env).2 = true ↔
      (env.m2Raises = true ∨ env.m2Status ≠ 200))
  ∧ ((env.m2Raises = true ∨ env.m2Status ≠ 200) →
      (env.m3Raises = true ∨ env.m3Status ≠ 200 ∨ env.m3Url = "") →
      (speakTextNonStreaming env).1 = NSRes.totalFailure)
  ∧ ((speakTextNonStreaming env).1 = NSRes.totalFailure →
      (env.m2Raises = true ∨ env.m2Status ≠ 200) ∧
      (env.m3Raises = true ∨ env.m3Status ≠ 200 ∨ env.m3Url = "")) := by
  by_cases h2 : env.m2Raises = false ∧ env.m2Status = 200
  · simp only [speakTextNonStreaming, if_pos h2]
    refine ⟨by simp [h2.1, h2.2], by simp [h2.1, h2.2], ?_⟩
    intro h
    exact absurd h (by simp)
  · have hm2 : env.m2Raises = true ∨ env.m2Status ≠ 200 := by
      rcases not_and_or.mp h2 with h | h
      · exact Or.inl (by revert h; cases env.m2Raises <;> simp)
      · exact Or.inr h
    simp only [speakTextNonStreaming, if_neg h2]
    by_cases h3 : env.m3Raises = false ∧ env.m3Status = 200 ∧ env.m3Url ≠ ""
    · simp only [if_pos h3]
      refine ⟨by simpa using hm2, ?_, ?_⟩
      · intro _ hb
        rcases h3 with ⟨h3a, h3b, h3c⟩
        rcases hb with h | h | h
        · rw [h3a] at h; cases h
        · exact absurd h3b h
        · exact absurd h h3c
      · intro h
        exact absurd h (by simp)
    · have hm3 : env.m3Raises = true ∨ env.m3Status ≠ 200 ∨ env.m3Url = "" := by
        rcases not_and_or.mp h3 with h | h
        · exact Or.inl (by revert h; cases env.m3Raises <;> simp)
        · rcases not_and_or.mp h with h | h
          · exact Or.inr (Or.inl h)
          · exact Or.inr (Or.inr (by revert h; simp))
      simp only [if_neg h3]
      exact ⟨by simpa using hm2, fun _ _ => trivial, fun _ => ⟨hm2, hm3⟩⟩

/-- Witness for claim C8 at an environment in which both methods
raise: the result is the error dictionary and the second method was
attempted. -/
theorem nonstreaming_fallback_witness :
    (speakTextNonStreaming nsFailEnv).1 = NSRes.totalFailure ∧
    ((speakTextNonStreaming nsFailEnv).2 = true ↔
      (nsFailEnv.m2Raises = true ∨ nsFailEnv.m2Status ≠ 200)) :=
  ⟨(nonstreaming_fallback_spec nsFailEnv).2.1 (Or.inl rfl) (Or.inl rfl),
   (nonstreaming_fallback_spec nsFailEnv).1⟩

/-- Claim C10: the lower-cased transcript is matched against the
affirmative word set before the negative one, so any transcript with
an affirmative substring match takes the confirmed branch and leaves
voice mode enabled, even if negative words also occur. -/
theorem affirmative_precedence_spec (env : RecEnv) (st : ProcState)
    (h1 : (speakTextNonStreaming env.notifyEnv).1 = NSRes.spoken)
    (h2 : env.captureRaises = false)
    (h3 : env.audioLen ≠ 0)
    (h4 : yesWords.any (fun w => strHas (pyStripLower env.transcript) w) = true) :
    handleStreamingFailure env st = (RecRes.recoveredConfirmed, st) := by
  simp only [handleStreamingFailure]
  rw [if_neg (by simp [h1]), if_neg (by simp [h2]), if_neg h3, if_pos h4]

/-- Witness for claim C10: the transcript can-apostrophe-t contains
the affirmative substring can and the negative word
can-apostrophe-t, and still lands in the confirmed branch with voice
mode left enabled. -/
theorem affirmative_precedence_witness :
    (noWords.any (fun w => strHas (pyStripLower recCanEnv.transcript) w) = true) ∧
    handleStreamingFailure recCanEnv procW = (RecRes.recoveredConfirmed, procW) :=
  ⟨by decide,
   affirmative_precedence_spec recCanEnv procW (by decide) rfl (by decide)
     (by decide)⟩

/-- Counterexample for claim C4 as stated: at a concrete input where
the fallback notification fails and the recovery capture would return
an empty transcript, the handler does not return the unclear outcome;
it returns the error status and disables voice mode. -/
theorem recovery_notify_failure_cex :
    (speakTextNonStreaming recFailEnv.notifyEnv).1 ≠ NSRes.spoken ∧
    recFailEnv.audioLen = 0 ∧
    (handleStreamingFailure recFailEnv procW).1 ≠ RecRes.recoveredUnclear ∧
    recStatus (handleStreamingFailure recFailEnv procW).1 = "error" ∧
    (handleStreamingFailure recFailEnv procW).2.voiceModeDisabled = true := by
  refine ⟨by decide, rfl, by decide, by decide, by decide⟩

/-- Claim C4 (amended): if the fallback notification succeeds and the
recovery capture returns an empty transcript (no audio, or a
transcript that strips to the empty string), the outcome is the
unclear spoken_with_recovery result and voice mode is not disabled. -/
theorem recovery_empty_transcript_unclear (env : RecEnv) (st : ProcState)
    (h1 : (speakTextNonStreaming env.notifyEnv).1 = NSRes.spoken)
    (h2 : env.captureRaises = false)
    (h3 : env.audioLen = 0 ∨ pyStripLower env.transcript = "") :
    handleStreamingFailure env st = (RecRes.recoveredUnclear, st) ∧
    (handleStreamingFailure env st).2.voiceModeDisabled =
      st.voiceModeDisabled := by
  have hmain : handleStreamingFailure env st = (RecRes.recoveredUnclear, st) := by
    simp only [handleStreamingFailure]
    rw [if_neg (by simp [h1]), if_neg (by simp [h2])]
    rcases h3 with h3 | h3
    · rw [if_pos h3]
    · by_cases h0 : env.audioLen = 0
      · rw [if_pos h0]
      · rw [if_neg h0, h3, if_neg (by decide), if_neg (by decide)]
  exact ⟨hmain, by rw [hmain]⟩

/-- Witness for the amended claim C4 at a concrete environment whose
notification succeeds and whose capture is empty. -/
theorem recovery_empty_transcript_unclear_witness :
    (speakTextNonStreaming recUnclearEnv.notifyEnv).1 = NSRes.spoken ∧
    (handleStreamingFailure recUnclearEnv procW =
        (RecRes.recoveredUnclear, procW) ∧
     (handleStreamingFailure recUnclearEnv procW).2.voiceModeDisabled =
        procW.voiceModeDisabled) :=
  ⟨by decide,
   recovery_empty_transcript_unclear recUnclearEnv procW (by decide) rfl
     (Or.inl rfl)⟩

theorem handleRec_streaming (env : RecEnv) (st : ProcState) :
    ((handleStreamingFailure env st).2).streamingAvailable =
      st.streamingAvailable := by
  simp only [handleStreamingFailure]
  split_ifs <;> simp [setDisabled]

theorem handleRec_services (env : RecEnv) (st : ProcState) :
    ((handleStreamingFailure env st).2).servicesAvailable =
      st.servicesAvailable := by
  simp only [handleStreamingFailure]
  split_ifs <;> simp [setDisabled]

theorem speakText_streaming_mono (env : SpeakEnv) (st : ProcState)
    (h : st.streamingAvailable = some false) :
    ((speakText env st).2.2).streamingAvailable = some false := by
  simp only [speakText]
  by_cases h1 : st.voiceModeDisabled = true
  · rw [if_pos h1]; exact h
  · rw [if_neg h1]
    by_cases h2 : env.paused = true
    · rw [if_pos h2]; exact h
    · rw [if_neg h2, if_pos h]; exact h

theorem speakText_services (env : SpeakEnv) (st : ProcState) :
    ((speakText env st).2.2).servicesAvailable = st.servicesAvailable := by
  simp only [speakText]
  by_cases h1 : st.voiceModeDisabled = true
  · rw [if_pos h1]
  · rw [if_neg h1]
    by_cases h2 : env.paused = true
    · rw [if_pos h2]
    · rw [if_neg h2]
      by_cases h3 : st.streamingAvailable = some false
      · rw [if_pos h3]
      · rw [if_neg h3]
        cases hrs : runStreaming env.streamEnv with
        | ok stats =>
          show (setStreaming st (some true)).servicesAvailable =
            st.servicesAvailable
          rfl
        | error er =>
          cases er with
          | stall =>
            show ((handleStreamingFailure env.recEnv
              (setStreaming st (some false))).2).servicesAvailable =
                st.servicesAvailable
            rw [handleRec_services]
            rfl
          | other =>
            show (if st.streamingAvailable = none
                  then setStreaming st (some false)
                  else st).servicesAvailable = st.servicesAvailable
            by_cases h4 : st.streamingAvailable = none
            · rw [if_pos h4]
              rfl
            · rw [if_neg h4]

theorem speakText_disabled_mono (env : SpeakEnv) (st : ProcState)
    (h : st.voiceModeDisabled = true) :
    ((speakText env st).2.2).voiceModeDisabled = true := by
  simp only [speakText]
  rw [if_pos h]
  exact h

theorem callToolBody_disabled_mono (n : ToolName) (env : ToolEnv)
    (st : ProcState) (eff : List Effect) (h : st.voiceModeDisabled = true) :
    ((callToolBody n env st eff).2.2).voiceModeDisabled = true := by
  simp only [callToolBody]
  by_cases hb : (n = ToolName.speak ∨ n = ToolName.listen ∨
      n = ToolName.converse) ∧ st.voiceModeDisabled = true
  · rw [if_pos hb]
    exact h
  · rw [if_neg hb]
    cases n with
    | speak => exact absurd ⟨Or.inl rfl, h⟩ hb
    | listen => exact absurd ⟨Or.inr (Or.inl rfl), h⟩ hb
    | converse => exact absurd ⟨Or.inr (Or.inr rfl), h⟩ hb
    | set_voice => exact h
    | voice_status => exact h

theorem callToolStep_disabled_mono (n : ToolName) (env : ToolEnv)
    (st : ProcState) (h : st.voiceModeDisabled = true) :
    ((callToolStep n env st).2.2).voiceModeDisabled = true := by
  simp only [callToolStep]
  split_ifs
  · exact callToolBody_disabled_mono n env _ _ h
  · exact h
  · exact callToolBody_disabled_mono n env _ _ h

theorem callToolBody_streaming_mono (n : ToolName) (env : ToolEnv)
    (st : ProcState) (eff : List Effect)
    (h : st.streamingAvailable = some false) :
    ((callToolBody n env st eff).2.2).streamingAvailable = some false := by
  simp only [callToolBody]
  by_cases hb : (n = ToolName.speak ∨ n = ToolName.listen ∨
      n = ToolName.converse) ∧ st.voiceModeDisabled = true
  · rw [if_pos hb]; exact h
  · rw [if_neg hb]
    cases n with
    | speak => exact speakText_streaming_mono env.speakEnv st h
    | listen => exact h
    | converse =>
      show (if env.message = "" then st
            else (speakText env.speakEnv st).2.2).streamingAvailable =
          some false
      by_cases hm : env.message = ""
      · rw [if_pos hm]; exact h
      · rw [if_neg hm]
        exact speakText_streaming_mono env.speakEnv st h
    | set_voice => exact h
    | voice_status => exact h

theorem callToolStep_streaming_mono (n : ToolName) (env : ToolEnv)
    (st : ProcState) (h : st.streamingAvailable = some false) :
    ((callToolStep n env st).2.2).streamingAvailable = some false := by
  simp only [callToolStep]
  split_ifs
  · exact callToolBody_streaming_mono n env _ _ h
  · exact h
  · exact callToolBody_streaming_mono n env _ _ h

theorem callToolBody_services (n : ToolName) (env : ToolEnv)
    (st : ProcState) (eff : List Effect) :
    ((callToolBody n env st eff).2.2).servicesAvailable =
      st.servicesAvailable := by
  simp only [callToolBody]
  by_cases hb : (n = ToolName.speak ∨ n = ToolName.listen ∨
      n = ToolName.converse) ∧ st.voiceModeDisabled = true
  · rw [if_pos hb]
  · rw [if_neg hb]
    cases n with
    | speak => exact speakText_services env.speakEnv st
    | listen => rfl
    | converse =>
      show (if env.message = "" then st
            else (speakText env.speakEnv st).2.2).servicesAvailable =
          st.servicesAvailable
      by_cases hm : env.message = ""
      · rw [if_pos hm]
      · rw [if_neg hm]
        exact speakText_services env.speakEnv st
    | set_voice => rfl
    | voice_status => rfl

theorem runCalls_streaming_mono (calls : List (ToolName × ToolEnv)) :
    ∀ st : ProcState, st.streamingAvailable = some false →
      (runCalls calls st).streamingAvailable = some false := by
  induction calls with
  | nil => intro st h; exact h
  | cons c rest ih =>
    intro st h
    simp only [runCalls, List.foldl_cons] at ih ⊢
    exact ih _ (callToolStep_streaming_mono c.1 c.2 st h)

/-- Claim C2: a streaming session that ends with StreamingStallError
flips the process-wide streaming flag to Unavailable, every later
speak call with the flag Unavailable skips the streaming attempt and
goes straight to the non-streaming fallback, and no sequence of tool
calls ever brings the flag back to Available. -/
theorem streaming_unavailable_latch (env : SpeakEnv) (st : ProcState)
    (calls : List (ToolName × ToolEnv)) :
    (st.voiceModeDisabled = false → env.paused = false →
      st.streamingAvailable ≠ some false →
      runStreaming env.streamEnv = Except.error StreamErr.stall →
      ((speakText env st).2.2).streamingAvailable = some false)
  ∧ (st.streamingAvailable = some false → st.voiceModeDisabled = false →
      env.paused = false →
      (speakText env st).2.1 = false ∧
      (speakText env st).1 =
        SpeakRes.nonstream (speakTextNonStreaming env.nsEnv).1)
  ∧ (st.streamingAvailable = some false →
      (runCalls calls st).streamingAvailable = some false) := by
  refine ⟨?_, ?_, fun h => runCalls_streaming_mono calls st h⟩
  · intro h1 h2 h3 h4
    simp only [speakText]
    rw [if_neg (by simp [h1]), if_neg (by simp [h2]), if_neg h3, h4]
    show ((handleStreamingFailure env.recEnv
        (setStreaming st (some false))).2).streamingAvailable = some false
    rw [handleRec_streaming]
    rfl
  · intro h1 h2 h3
    simp only [speakText]
    rw [if_neg (by simp [h2]), if_neg (by simp [h3]), if_pos h1]
    exact ⟨rfl, rfl⟩

/-- The sample stalling environment really raises
StreamingStallError. -/
theorem runStreaming_stallEnvW :
    runStreaming stallEnvW = Except.error StreamErr.stall := by
  apply runStreaming_stall stallEnvW ⟨16000, 1, 16, 2⟩ rfl (by decide) (by decide)
  have hd : stallEnvW.header.drop wavHeaderSize = [] := by decide
  rw [hd]
  norm_num [stallEnvW, streamLoop, setLastTime]

/-- Witness for claim C2: with the flag already Unavailable a speak
call does not attempt streaming and returns the fallback result; a
stalling session from the unprobed state leaves the flag Unavailable;
and a subsequent speak call keeps it Unavailable. -/
theorem streaming_unavailable_latch_witness :
    ((speakText speakEnvW stFalseW).2.1 = false ∧
      (speakText speakEnvW stFalseW).1 =
        SpeakRes.nonstream (speakTextNonStreaming speakEnvW.nsEnv).1) ∧
    ((speakText speakEnvW stNoneW).2.2).streamingAvailable = some false ∧
    (runCalls [(ToolName.speak, toolEnvW)] stFalseW).streamingAvailable =
      some false :=
  ⟨(streaming_unavailable_latch speakEnvW stFalseW []).2.1 rfl rfl rfl,
   (streaming_unavailable_latch speakEnvW stNoneW []).1 rfl rfl (by decide)
     runStreaming_stallEnvW,
   (streaming_unavailable_latch speakEnvW stFalseW
     [(ToolName.speak, toolEnvW)]).2.2 rfl⟩

theorem callToolBody_voice_status (env : ToolEnv) (st : ProcState)
    (eff : List Effect) :
    callToolBody ToolName.voice_status env st eff =
      (ToolRes.statusAns, eff ++ [Effect.healthCheck], st) := by
  simp [callToolBody]

/-- Claim C3: the disabled-invariant (disabled implies services
checked) is preserved by every tool call, the disabled flag is never
reset by a tool call, and once voice mode is disabled every speak,
listen and converse call returns the disabled-state error with an
empty I/O trace (no backend contact, no audio device) and an unchanged
state. -/
theorem voice_disabled_short_circuit (n : ToolName) (env : ToolEnv)
    (st : ProcState) :
    ((st.voiceModeDisabled = true → st.servicesAvailable = true) →
      (((callToolStep n env st).2.2).voiceModeDisabled = true →
        ((callToolStep n env st).2.2).servicesAvailable = true))
  ∧ (st.voiceModeDisabled = true →
      ((callToolStep n env st).2.2).voiceModeDisabled = true)
  ∧ (st.voiceModeDisabled = true → st.servicesAvailable = true →
      (n = ToolName.speak ∨ n = ToolName.listen ∨ n = ToolName.converse) →
      callToolStep n env st = (ToolRes.disabledErr, [], st)) := by
  refine ⟨?_, fun h => callToolStep_disabled_mono n env st h, ?_⟩
  · intro hInv
    by_cases hs : st.servicesAvailable = true
    · intro _
      simp only [callToolStep]
      split_ifs
      · rw [callToolBody_services]
        rfl
      · exact hs
      · rw [callToolBody_services]
        exact hs
    · have hd : st.voiceModeDisabled = false := by
        revert hInv hs
        cases st.voiceModeDisabled <;> cases st.servicesAvailable <;> simp
      simp only [callToolStep]
      split_ifs with hg hh
      · intro _
        rw [callToolBody_services]
        rfl
      · intro hcontra
        rw [hd] at hcontra
        cases hcontra
      · have hvs : n = ToolName.voice_status := by
          rcases not_and_or.mp hg with h | h
          · revert h; simp
          · exact absurd (by revert hs; cases st.servicesAvailable <;> simp) h
        subst hvs
        rw [callToolBody_voice_status]
        intro hcontra
        rw [hd] at hcontra
        cases hcontra
  · intro hd hs hn
    simp only [callToolStep]
    rw [if_neg (by simp [hs])]
    simp only [callToolBody]
    rw [if_pos ⟨hn, hd⟩]

/-- Witness for claim C3: with voice mode disabled and services
available, a speak call returns the disabled error with no I/O and the
state unchanged, and a listen call leaves the flag set. -/
theorem voice_disabled_short_circuit_witness :
    callToolStep ToolName.speak toolEnvW stDisW =
      (ToolRes.disabledErr, [], stDisW) ∧
    ((callToolStep ToolName.listen toolEnvW stDisW).2.2).voiceModeDisabled =
      true :=
  ⟨(voice_disabled_short_circuit ToolName.speak toolEnvW stDisW).2.2 rfl rfl
     (Or.inl rfl),
   (voice_disabled_short_circuit ToolName.listen toolEnvW stDisW).2.1 rfl⟩

/-- Claim C9: in the shared input-stream callback every non-empty
frame updates the level meter, the recording buffer changes only while
the recording flag is set, a frame arriving muted in any mode other
than push_to_talk is never appended even though the meter still
updates, and an unmuted (or push-to-talk) recording frame is appended
exactly once at the end of the buffer. -/
theorem mic_callback_gate_spec (levelOf : List Int → Nat → ℚ)
    (scaleOf : List Int → Nat → List Int) (frame : List Int)
    (st : PanelState) (hne : ¬frame.length = 0) :
    ((sharedCallback levelOf scaleOf frame st).levelValue =
      levelOf frame st.volume)
  ∧ (st.isRecording = false →
      (sharedCallback levelOf scaleOf frame st).recordingFrames =
        st.recordingFrames)
  ∧ (st.isMuted = true → st.mode ≠ pushToTalkMode →
      (sharedCallback levelOf scaleOf frame st).recordingFrames =
        st.recordingFrames)
  ∧ (st.isRecording = true →
      (st.mode = pushToTalkMode ∨ st.isMuted = false) →
      (sharedCallback levelOf scaleOf frame st).recordingFrames =
        st.recordingFrames ++ [scaleOf frame st.volume]) := by
  refine ⟨?_, ?_, ?_, ?_⟩
  · simp only [sharedCallback]
    rw [if_neg hne]
    split_ifs <;> simp [setLevel, pushFrame]
  · intro hr
    simp only [sharedCallback]
    rw [if_neg hne, if_neg (by simp [setLevel, hr])]
    simp [setLevel]
  · intro hm hmode
    simp only [sharedCallback]
    rw [if_neg hne]
    by_cases hr : st.isRecording = true
    · rw [if_pos (by simp [setLevel, hr]),
        if_pos ⟨by simp [setLevel, hmode], by simp [setLevel, hm]⟩]
      simp [setLevel]
    · rw [if_neg (by simp [setLevel, hr])]
      simp [setLevel]
  · intro hr hok
    simp only [sharedCallback]
    rw [if_neg hne, if_pos (by simp [setLevel, hr])]
    rw [if_neg (by
      rcases hok with h | h
      · simp [setLevel, h]
      · simp [setLevel, h])]
    simp [setLevel, pushFrame]

/-- Witness for claim C9 at a one-sample frame and a panel that is
recording unmuted in toggle mode. -/
theorem mic_callback_gate_witness :
    (sharedCallback (fun _ _ => (0 : ℚ)) (fun f _ => f) [1] panelW).levelValue
      = 0 ∧
    (sharedCallback (fun _ _ => (0 : ℚ)) (fun f _ => f) [1]
        panelW).recordingFrames = panelW.recordingFrames ++ [[1]] := by
  have h := mic_callback_gate_spec (fun _ _ => (0 : ℚ)) (fun f _ => f) [1]
    panelW (by decide)
  exact ⟨h.1, h.2.2.2 rfl (Or.inr rfl)⟩

end VoiceMode
